import Mathlib

/-!
# NativeDirectoryLister

A verification development for the JNI header
`com_swoval_files_impl_NativeDirectoryLister.h`.

The header fixes the numeric constants of the directory lister and declares
its seven native functions.  The constants and the declarations are embedded
from the header.  The bodies of the native functions are not part of the
header; where a property is about their behaviour the function is modelled
from the written specification and marked as such.
-/

namespace NativeDirectoryLister

/-! ## Constants of the header -/

/-- Constant `com_swoval_files_impl_NativeDirectoryLister_UNKNOWN 8L`. -/
def UNKNOWN : Int := 8

/-- Constant `com_swoval_files_impl_NativeDirectoryLister_DIRECTORY 1L`. -/
def DIRECTORY : Int := 1

/-- Constant `com_swoval_files_impl_NativeDirectoryLister_FILE 2L`. -/
def FILE : Int := 2

/-- Constant `com_swoval_files_impl_NativeDirectoryLister_LINK 4L`. -/
def LINK : Int := 4

/-- Constant `com_swoval_files_impl_NativeDirectoryLister_EOF 8L`. -/
def EOF : Int := 8

/-- Constant `com_swoval_files_impl_NativeDirectoryLister_ENOENT -1L`. -/
def ENOENT : Int := -1

/-- Constant `com_swoval_files_impl_NativeDirectoryLister_EACCES -2L`. -/
def EACCES : Int := -2

/-- Constant `com_swoval_files_impl_NativeDirectoryLister_ENOTDIR -3L`. -/
def ENOTDIR : Int := -3

/-- Constant `com_swoval_files_impl_NativeDirectoryLister_ESUCCESS -4L`. -/
def ESUCCESS : Int := -4

/-- Constant `com_swoval_files_impl_NativeDirectoryLister_MAX_ATTEMPTS 100L`. -/
def MAX_ATTEMPTS : Int := 100

/-- The four entry-type tags of the header, in the order they are defined. -/
def typeTags : List Int := [UNKNOWN, DIRECTORY, FILE, LINK]

/-- The four error codes of the header, in the order they are defined. -/
def errorCodes : List Int := [ENOENT, EACCES, ENOTDIR, ESUCCESS]

/-- Every constant the header defines, in the order of the `#define` lines. -/
def allConstants : List Int :=
  [UNKNOWN, DIRECTORY, FILE, LINK, EOF, ENOENT, EACCES, ENOTDIR, ESUCCESS, MAX_ATTEMPTS]

/-- The five names a value returned by `nextFile` or `getType` may stand for:
the four entry-type tags and the end-of-stream sentinel. -/
inductive TagName where
  | unknown
  | directory
  | file
  | link
  | eof
  deriving DecidableEq, Repr

/-- The number the header gives to each of the five names. -/
def TagName.value : TagName → Int
  | .unknown => UNKNOWN
  | .directory => DIRECTORY
  | .file => FILE
  | .link => LINK
  | .eof => EOF

/-- All five names. -/
def TagName.all : List TagName := [.unknown, .directory, .file, .link, .eof]

/-! ## Narrowing between `jlong` and `jint` -/

/-- Narrowing of a 64-bit `jlong` value to the 32-bit `jint`: the low 32 bits,
read as a signed two's complement number. -/
def toJint (x : Int) : Int := (x + 2 ^ 31) % 2 ^ 32 - 2 ^ 31

/-- Widening of a `jint` to a `jlong` keeps the value. -/
def toJlong (x : Int) : Int := x

/-- Membership in the signed 32-bit range. -/
def inJintRange (x : Int) : Prop := -(2 ^ 31) ≤ x ∧ x < 2 ^ 31

instance (x : Int) : Decidable (inJintRange x) := by
  unfold inJintRange
  exact inferInstance


/-! ## Native function declarations of the header -/

/-- The C types that occur in the prototypes of the header. -/
inductive JType where
  | envPtr
  | jobject
  | jint
  | jlong
  | jstring
  | void
  deriving DecidableEq, Repr

/-- One `JNIEXPORT ... JNICALL` prototype together with the `Method:` and
`Signature:` lines of the comment above it. -/
structure NativeDecl where
  method : String
  signature : String
  ret : JType
  params : List JType
  deriving DecidableEq, Repr

/-- The prototypes of the header, in the order they are declared. -/
def declarations : List NativeDecl :=
  [ ⟨"errno", "(J)I", .jint, [.envPtr, .jobject, .jlong]⟩,
    ⟨"strerror", "(I)Ljava/lang/String;", .jstring, [.envPtr, .jobject, .jint]⟩,
    ⟨"openDir", "(Ljava/lang/String;)J", .jlong, [.envPtr, .jobject, .jstring]⟩,
    ⟨"closeDir", "(J)V", .void, [.envPtr, .jobject, .jlong]⟩,
    ⟨"nextFile", "(J)J", .jlong, [.envPtr, .jobject, .jlong]⟩,
    ⟨"getType", "(J)I", .jint, [.envPtr, .jobject, .jlong]⟩,
    ⟨"getName", "(J)Ljava/lang/String;", .jstring, [.envPtr, .jobject, .jlong]⟩ ]

/-- The arguments a prototype takes after the JNI environment and the
receiver object, which every JNI function takes first. -/
def NativeDecl.javaParams (d : NativeDecl) : List JType := d.params.drop 2

/-- The descriptor letter of a type in a JNI signature. -/
def JType.descriptor : JType → String
  | .jint => "I"
  | .jlong => "J"
  | .jstring => "Ljava/lang/String;"
  | .void => "V"
  | .envPtr => ""
  | .jobject => ""

/-- The JNI signature that corresponds to the C prototype. -/
def NativeDecl.prototypeSignature (d : NativeDecl) : String :=
  "(" ++ String.join (d.javaParams.map JType.descriptor) ++ ")" ++ d.ret.descriptor

/-- The primitive kinds of value of the interface table of the specification. -/
inductive Primitive where
  | text
  | int64
  | int32
  | nothing
  deriving DecidableEq, Repr

/-- The primitive kind a C type of the header carries; the JNI environment and
the receiver object carry none. -/
def JType.primitive : JType → Option Primitive
  | .jint => some .int32
  | .jlong => some .int64
  | .jstring => some .text
  | .void => some .nothing
  | .envPtr => none
  | .jobject => none

/-- The seven operations of the interface table of the specification. -/
inductive Operation where
  | openCursor
  | closeCursor
  | advance
  | currentType
  | currentName
  | lastError
  | describe
  deriving DecidableEq, Repr

/-- All operations, in the order of the interface table. -/
def Operation.all : List Operation :=
  [.openCursor, .closeCursor, .advance, .currentType, .currentName, .lastError, .describe]

/-- The native method the specification pairs with each operation. -/
def Operation.nativeName : Operation → String
  | .openCursor => "openDir"
  | .closeCursor => "closeDir"
  | .advance => "nextFile"
  | .currentType => "getType"
  | .currentName => "getName"
  | .lastError => "errno"
  | .describe => "strerror"

/-- The kind of the single input of each operation, as the specification
states it. -/
def Operation.input : Operation → Primitive
  | .openCursor => .text
  | .closeCursor => .int64
  | .advance => .int64
  | .currentType => .int64
  | .currentName => .int64
  | .lastError => .int64
  | .describe => .int32

/-- The kind of the output of each operation, as the specification states it. -/
def Operation.output : Operation → Primitive
  | .openCursor => .int64
  | .closeCursor => .nothing
  | .advance => .int64
  | .currentType => .int32
  | .currentName => .text
  | .lastError => .int32
  | .describe => .text

/-- The prototype the header must hold for an operation, as the specification
states it. -/
def Operation.matches (op : Operation) (d : NativeDecl) : Bool :=
  d.method == op.nativeName &&
  d.javaParams.map JType.primitive == [some op.input] &&
  d.ret.primitive == some op.output


/-! ## Behaviour of the native functions

The header holds only the prototypes of the native functions.  Their
behaviour is modelled from the specification. -/

/-- Modelled from the spec: the Error/Type Mapper of section 4.2, whose
functions `classify` and `normalize` are not in the header.  It is a pair of
pure functions, from an OS entry-type indicator to an entry-type tag and from
an OS error number to an error code. -/
structure Mapper where
  classify : Int → Int
  normalize : Int → Int

/-- Modelled from the spec: the outcome of one read of the OS directory
stream, which `nextFile` (whose body is not in the header) performs: the next
raw entry, the end of the stream, a transient failure such as an interrupted
system call, or any other failure. -/
inductive ReadResult where
  | entry (rawType : Int) (name : String)
  | endOfStream
  | transientFailure (osErrno : Int)
  | hardFailure (osErrno : Int)
  deriving DecidableEq, Repr

/-- Modelled from the spec: the three results of `advance` (section 4.1); the
body of `nextFile` is not in the header. -/
inductive AdvanceResult where
  | hasEntry (type : Int) (name : String)
  | endOfStream
  | error (code : Int)
  deriving DecidableEq, Repr

/-- Modelled from the spec: the Directory Cursor of section 3, whose
definition is not in the header: whether it holds an OS directory stream, the
type tag and the name of the current entry when one is materialized, the
end-of-stream flag and the error code last observed on the handle. -/
structure Cursor where
  isOpen : Bool
  currentType : Option Int
  currentName : Option String
  endOfStream : Bool
  lastError : Int
  deriving DecidableEq, Repr

/-- Modelled from the spec: the outcome of one call of `advance`
(section 4.1), whose body `nextFile` is not in the header: its result, the
cursor after the call and the number of reads of the OS stream the call
made. -/
structure AdvanceOutcome where
  result : AdvanceResult
  cursor : Cursor
  attempts : Nat
  deriving DecidableEq, Repr

/-- Modelled from the spec: the retry loop of `advance` (section 4.1), whose
body `nextFile` is not in the header.  `left` is the number of attempts still
allowed, `done` the number of reads made so far and `lastErrno` the OS error
of the latest transient failure.  A successful read materializes the entry,
the end of the stream sets the flag, a transient failure is retried while
attempts are left, and a failure that is surfaced is normalized through the
mapper and recorded on the cursor. -/
def nextFileLoop (m : Mapper) (reads : Nat → ReadResult) (c : Cursor) :
    Nat → Nat → Int → AdvanceOutcome
  | 0, done, lastErrno =>
    ⟨.error (m.normalize lastErrno), { c with lastError := m.normalize lastErrno }, done⟩
  | left + 1, done, _ =>
    match reads done with
    | .entry rawType name =>
      ⟨.hasEntry (m.classify rawType) name,
        { c with currentType := some (m.classify rawType), currentName := some name },
        done + 1⟩
    | .endOfStream =>
      ⟨.endOfStream, { c with currentType := none, currentName := none, endOfStream := true },
        done + 1⟩
    | .hardFailure e =>
      ⟨.error (m.normalize e), { c with lastError := m.normalize e }, done + 1⟩
    | .transientFailure e => nextFileLoop m reads c left (done + 1) e

/-- Modelled from the spec: `advance` (section 4.1), the behaviour of
`nextFile`, whose body is not in the header.  `reads i` is the outcome of the
read of the OS stream number `i` of this call; at most `MAX_ATTEMPTS` reads
are made. -/
def nextFile (m : Mapper) (reads : Nat → ReadResult) (c : Cursor) : AdvanceOutcome :=
  nextFileLoop m reads c MAX_ATTEMPTS.toNat 0 0

/-- Modelled from the spec: what the OS finds at a path when `openDir` (whose
body is not in the header) opens it: whether the path exists, whether it names
a directory and whether the caller may read it. -/
structure PathStatus where
  pathExists : Bool
  isDirectory : Bool
  readable : Bool
  deriving DecidableEq, Repr

/-- Modelled from the spec: the error code of `open` (section 4.1) for a path;
the body of `openDir` is not in the header.  NoSuchEntry when the path does
not exist, NotADirectory when it exists but is not a directory,
PermissionDenied when the directory may not be read, Success otherwise. -/
def openCode (st : PathStatus) : Int :=
  if !st.pathExists then ENOENT
  else if !st.isDirectory then ENOTDIR
  else if !st.readable then EACCES
  else ESUCCESS

/-- Modelled from the spec: `openDir`, whose body is not in the header.  It
returns the handle of a cursor with no current entry materialized; the cursor
holds a directory stream exactly when the open succeeded and records the code
of the open as its last error. -/
def openDir (fs : String → PathStatus) (path : String) : Cursor :=
  { isOpen := openCode (fs path) == ESUCCESS
    currentType := none
    currentName := none
    endOfStream := false
    lastError := openCode (fs path) }

/-- Modelled from the spec: `lastError` (section 4.1), the behaviour of
`errno`, whose body is not in the header: the error code last observed on the
handle, as a `jint`. -/
def errno (c : Cursor) : Int := toJint c.lastError

/-- Modelled from the spec: the result `Cursor | Error` of `open`
(section 4.1), read off the handle `openDir` returns. -/
def openResult (fs : String → PathStatus) (path : String) : Except Int Cursor :=
  if (openDir fs path).isOpen then .ok (openDir fs path)
  else .error (openDir fs path).lastError

/-- Modelled from the spec: `describe` (section 4.2), the behaviour of
`strerror`, whose body is not in the header.  The specification fixes no
wording; each code of the closed set has a description of its own and every
other value has the fallback description. -/
def strerror (code : Int) : String :=
  if code = ESUCCESS then "Success"
  else if code = ENOENT then "No such file or directory"
  else if code = EACCES then "Permission denied"
  else if code = ENOTDIR then "Not a directory"
  else "Unknown error"


/-! ## Concrete inputs -/

/-- A mapper: the OS entry types 4 and 8 are a directory and a file, the OS
error numbers 2, 13 and 20 are the three named failures. -/
def sampleMapper : Mapper where
  classify := fun t => if t = 4 then DIRECTORY else if t = 8 then FILE else UNKNOWN
  normalize := fun e =>
    if e = 2 then ENOENT else if e = 13 then EACCES else if e = 20 then ENOTDIR else e

/-- A cursor just opened on a directory. -/
def freshCursor : Cursor :=
  { isOpen := true, currentType := none, currentName := none, endOfStream := false,
    lastError := ESUCCESS }

/-- Three interrupted reads followed by the regular file `f.txt`. -/
def interruptedThrice : Nat → ReadResult :=
  fun i => if i < 3 then .transientFailure 4 else .entry 8 "f.txt"

/-- Reads that are interrupted every time. -/
def alwaysInterrupted : Nat → ReadResult := fun _ => .transientFailure 4

/-- A file system with the directory `/tmp/d`, the plain file `/tmp/d/f.txt`
and the unreadable directory `/root`. -/
def sampleFs : String → PathStatus := fun p =>
  if p = "/tmp/d" then ⟨true, true, true⟩
  else if p = "/tmp/d/f.txt" then ⟨true, false, true⟩
  else if p = "/root" then ⟨true, true, false⟩
  else ⟨false, false, false⟩

end NativeDirectoryLister

open NativeDirectoryLister

/-- C1: the constants of the header have exactly the values of the stable
contract: UNKNOWN 8, DIRECTORY 1, FILE 2, LINK 4, EOF 8, ENOENT -1,
EACCES -2, ENOTDIR -3, ESUCCESS -4 and MAX_ATTEMPTS 100. -/
theorem constants_have_contract_values :
    UNKNOWN = 8 ∧ DIRECTORY = 1 ∧ FILE = 2 ∧ LINK = 4 ∧ EOF = 8 ∧
    ENOENT = -1 ∧ EACCES = -2 ∧ ENOTDIR = -3 ∧ ESUCCESS = -4 ∧
    MAX_ATTEMPTS = 100 := by
  refine ⟨rfl, rfl, rfl, rfl, rfl, rfl, rfl, rfl, rfl, rfl⟩

/-- C2: the four error codes ENOENT, EACCES, ENOTDIR and ESUCCESS are pairwise
distinct and each of them, ESUCCESS included, is strictly negative. -/
theorem error_codes_distinct_negative :
    errorCodes = [ENOENT, EACCES, ENOTDIR, ESUCCESS] ∧
    errorCodes.Pairwise (fun a b => a ≠ b) ∧
    (∀ e ∈ errorCodes, e < 0) := by
  refine ⟨rfl, ?_, ?_⟩
  · decide
  · decide

/-- C3: every error code differs from every entry-type tag and from the
end-of-stream sentinel; indeed each error code is below zero and each tag and
the sentinel is above zero. -/
theorem error_codes_disjoint_from_tags :
    ∀ e ∈ [ENOENT, EACCES, ENOTDIR, ESUCCESS],
      ∀ t ∈ [UNKNOWN, DIRECTORY, FILE, LINK, EOF],
        e ≠ t ∧ e < 0 ∧ 0 < t := by
  decide

/-- C4: the entry-type tags UNKNOWN, DIRECTORY, FILE and LINK are pairwise
distinct, each is a power of two, and the bitwise AND of two different tags
is zero. -/
theorem type_tags_do_not_overlap :
    typeTags = [UNKNOWN, DIRECTORY, FILE, LINK] ∧
    typeTags.Pairwise (fun a b => a ≠ b) ∧
    (∀ t ∈ typeTags, ∃ k : Nat, k < 4 ∧ t = 2 ^ k) ∧
    (∀ a ∈ typeTags, ∀ b ∈ typeTags, a ≠ b → Int.land a b = 0) := by
  refine ⟨rfl, by decide, ?_, by decide⟩
  intro t ht
  simp only [typeTags, List.mem_cons, List.mem_singleton, List.not_mem_nil, or_false] at ht
  rcases ht with h | h | h | h
  · exact ⟨3, by decide, by rw [h]; rfl⟩
  · exact ⟨0, by decide, by rw [h]; rfl⟩
  · exact ⟨1, by decide, by rw [h]; rfl⟩
  · exact ⟨2, by decide, by rw [h]; rfl⟩

/-- C5: EOF and UNKNOWN have the same value 8; the five names take only four
distinct numbers; UNKNOWN is the only entry-type tag equal to EOF; and no
decoding of numbers recovers all five names. -/
theorem eof_aliases_unknown :
    EOF = 8 ∧ UNKNOWN = 8 ∧ EOF = UNKNOWN ∧
    ((TagName.all.map TagName.value).dedup).length = 4 ∧
    EOF ≠ DIRECTORY ∧ EOF ≠ FILE ∧ EOF ≠ LINK ∧
    (∀ t ∈ typeTags, t = EOF ↔ t = UNKNOWN) ∧
    ¬ Function.Injective TagName.value ∧
    ¬ ∃ decode : Int → TagName, ∀ n : TagName, decode n.value = n := by
  refine ⟨rfl, rfl, rfl, by decide, by decide, by decide, by decide, by decide, ?_, ?_⟩
  · intro hinj
    have h : TagName.unknown = TagName.eof := hinj rfl
    exact absurd h (by decide)
  · rintro ⟨decode, hdec⟩
    have h1 := hdec .unknown
    have h2 := hdec .eof
    have h3 : TagName.unknown.value = TagName.eof.value := rfl
    rw [h3, h2] at h1
    exact absurd h1 (by decide)

/-- C10: every constant of the header lies in the signed 32-bit range, so
narrowing it to `jint` and widening it back gives the same value, and the
narrowed constants keep the equalities and the order of the 64-bit ones; in
particular the narrowed error codes are negative and differ from the narrowed
type tags, which are positive. -/
theorem constants_survive_narrowing :
    (∀ c ∈ allConstants, inJintRange c ∧ toJlong (toJint c) = c) ∧
    (∀ c ∈ allConstants, ∀ d ∈ allConstants,
      (toJint c = toJint d ↔ c = d) ∧ (toJint c < toJint d ↔ c < d)) ∧
    (∀ e ∈ errorCodes, toJint e < 0) ∧
    (∀ e ∈ errorCodes, ∀ t ∈ typeTags, 0 < toJint t ∧ toJint e ≠ toJint t) := by
  refine ⟨by decide, by decide, by decide, by decide⟩

/-- C9: the header declares exactly seven native functions, one for each
operation of the interface table and no others: openDir takes text and returns
a 64-bit handle, closeDir takes a 64-bit handle and returns nothing, nextFile
takes a 64-bit handle and returns a 64-bit integer, getType takes a 64-bit
handle and returns a 32-bit integer, getName takes a 64-bit handle and returns
text, errno takes a 64-bit handle and returns a 32-bit integer, strerror takes
a 32-bit integer and returns text. -/
theorem header_declares_the_seven_operations :
    declarations.length = 7 ∧
    (declarations.map NativeDecl.method).Nodup ∧
    (∀ d ∈ declarations, d.params.take 2 = [JType.envPtr, JType.jobject] ∧
      d.prototypeSignature = d.signature) ∧
    (∀ op ∈ Operation.all, ∃ d ∈ declarations, op.matches d = true) ∧
    (∀ d ∈ declarations, ∃ op ∈ Operation.all, op.matches d = true) ∧
    (∀ op : Operation, op ∈ Operation.all) := by
  refine ⟨rfl, by decide, by decide, by decide, by decide, ?_⟩
  intro op
  cases op <;> decide

/-! ## The retry loop of `nextFile` -/

/-- The loop never makes more reads than the attempts it is allowed. -/
theorem nextFileLoop_attempts_le (m : Mapper) (reads : Nat → ReadResult) (c : Cursor) :
    ∀ (left done : Nat) (lastErrno : Int),
      (nextFileLoop m reads c left done lastErrno).attempts ≤ done + left := by
  intro left
  induction left with
  | zero => intro done lastErrno; simp [nextFileLoop]
  | succ l ih =>
    intro done lastErrno
    unfold nextFileLoop
    cases hr : reads done with
    | entry rawType name => simp
    | endOfStream => simp
    | hardFailure e => simp
    | transientFailure e =>
      simp only
      have h := ih (done + 1) e
      omega

/-- When an attempt is allowed the loop reads the OS stream at least once. -/
theorem nextFileLoop_attempts_pos (m : Mapper) (reads : Nat → ReadResult) (c : Cursor) :
    ∀ (left done : Nat) (lastErrno : Int),
      done ≤ (nextFileLoop m reads c left done lastErrno).attempts ∧
      (0 < left → done < (nextFileLoop m reads c left done lastErrno).attempts) := by
  intro left
  induction left with
  | zero => intro done lastErrno; simp [nextFileLoop]
  | succ l ih =>
    intro done lastErrno
    unfold nextFileLoop
    cases hr : reads done with
    | entry rawType name => simp
    | endOfStream => simp
    | hardFailure e => simp
    | transientFailure e =>
      simp only
      have h := (ih (done + 1) e).1
      omega

/-- Transient failures followed by an entry, within the attempts allowed, end
in that entry. -/
theorem nextFileLoop_entry (m : Mapper) (reads : Nat → ReadResult) (c : Cursor)
    (rawType : Int) (name : String) :
    ∀ (k left done : Nat) (lastErrno : Int), k < left →
      (∀ i, i < k → ∃ e, reads (done + i) = .transientFailure e) →
      reads (done + k) = .entry rawType name →
      nextFileLoop m reads c left done lastErrno =
        ⟨.hasEntry (m.classify rawType) name,
          { c with currentType := some (m.classify rawType), currentName := some name },
          done + k + 1⟩ := by
  intro k
  induction k with
  | zero =>
    intro left done lastErrno hk _ hentry
    obtain ⟨l, rfl⟩ : ∃ l, left = l + 1 := ⟨left - 1, by omega⟩
    simp only [Nat.add_zero] at hentry
    simp [nextFileLoop, hentry]
  | succ k ih =>
    intro left done lastErrno hk htrans hentry
    obtain ⟨l, rfl⟩ : ∃ l, left = l + 1 := ⟨left - 1, by omega⟩
    obtain ⟨e, he⟩ := htrans 0 (by omega)
    simp only [Nat.add_zero] at he
    have hrec := ih l (done + 1) e (by omega)
      (fun i hi => by
        obtain ⟨e2, he2⟩ := htrans (i + 1) (by omega)
        exact ⟨e2, by rw [← he2]; congr 1; omega⟩)
      (by rw [← hentry]; congr 1; omega)
    unfold nextFileLoop
    rw [he]
    simp only
    rw [hrec]
    congr 1
    omega

/-- When every allowed attempt fails transiently the loop surfaces the OS
error of the last attempt, normalized, after exactly the allowed reads. -/
theorem nextFileLoop_exhausted (m : Mapper) (reads : Nat → ReadResult) (c : Cursor) :
    ∀ (left done : Nat) (lastErrno e : Int),
      (∀ i, i < left → ∃ e2, reads (done + i) = .transientFailure e2) →
      reads (done + left) = .transientFailure e →
      nextFileLoop m reads c (left + 1) done lastErrno =
        ⟨.error (m.normalize e), { c with lastError := m.normalize e }, done + left + 1⟩ := by
  intro left
  induction left with
  | zero =>
    intro done lastErrno e _ hlast
    simp only [Nat.add_zero] at hlast
    simp [nextFileLoop, hlast]
  | succ l ih =>
    intro done lastErrno e htrans hlast
    obtain ⟨e0, he0⟩ := htrans 0 (by omega)
    simp only [Nat.add_zero] at he0
    have hrec := ih (done + 1) e0 e
      (fun i hi => by
        obtain ⟨e2, he2⟩ := htrans (i + 1) (by omega)
        exact ⟨e2, by rw [← he2]; congr 1; omega⟩)
      (by rw [← hlast]; congr 1; omega)
    rw [nextFileLoop, he0]
    simp only
    rw [hrec]
    congr 1
    omega

/-- C3, at a concrete input: ESUCCESS differs from EOF, is negative, and EOF
is positive. -/
theorem error_codes_disjoint_from_tags_witness :
    ESUCCESS ≠ EOF ∧ ESUCCESS < 0 ∧ 0 < EOF :=
  error_codes_disjoint_from_tags ESUCCESS (by decide) EOF (by decide)

/-- C6: `nextFile` retries a transient read failure within the bound
MAX_ATTEMPTS = 100.  For every sequence of read outcomes: when fewer than 100
transient failures are followed by a successful read, the result is HasEntry
with that entry; when all 100 attempts fail transiently, the result is the OS
error of the last attempt normalized through the mapper; and in every case the
call makes at least one and at most 100 reads. -/
theorem nextFile_bounded_retry (m : Mapper) (reads : Nat → ReadResult) (c : Cursor) :
    (∀ (k : Nat) (rawType : Int) (name : String), (k : Int) < MAX_ATTEMPTS →
      (∀ i, i < k → ∃ e, reads i = .transientFailure e) →
      reads k = .entry rawType name →
      (nextFile m reads c).result = .hasEntry (m.classify rawType) name ∧
      (nextFile m reads c).cursor.currentType = some (m.classify rawType) ∧
      (nextFile m reads c).cursor.currentName = some name ∧
      (nextFile m reads c).attempts = k + 1) ∧
    ((∀ i : Nat, (i : Int) < MAX_ATTEMPTS → ∃ e, reads i = .transientFailure e) →
      ∃ e, reads 99 = .transientFailure e ∧
        (nextFile m reads c).result = .error (m.normalize e) ∧
        (nextFile m reads c).cursor.lastError = m.normalize e ∧
        (nextFile m reads c).attempts = 100) ∧
    1 ≤ (nextFile m reads c).attempts ∧
    ((nextFile m reads c).attempts : Int) ≤ MAX_ATTEMPTS := by
  have hmax : MAX_ATTEMPTS.toNat = 100 := rfl
  refine ⟨?_, ?_, ?_, ?_⟩
  · intro k rawType name hk htrans hentry
    have hk2 : k < 100 := by
      have : (k : Int) < 100 := hk
      omega
    have h := nextFileLoop_entry m reads c rawType name k 100 0 0 hk2
      (fun i hi => by simpa using htrans i hi) (by simpa using hentry)
    unfold nextFile
    rw [hmax, h]
    simp
  · intro htrans
    obtain ⟨e, he⟩ := htrans 99 (by decide)
    have h := nextFileLoop_exhausted m reads c 99 0 0 e
      (fun i hi => by
        have hi2 : ((i : Nat) : Int) < MAX_ATTEMPTS := by
          show (i : Int) < 100
          omega
        simpa using htrans i hi2)
      (by simpa using he)
    refine ⟨e, he, ?_⟩
    unfold nextFile
    rw [hmax, h]
    simp
  · have h := (nextFileLoop_attempts_pos m reads c 100 0 0).2 (by decide)
    unfold nextFile
    rw [hmax]
    omega
  · have h := nextFileLoop_attempts_le m reads c 100 0 0
    unfold nextFile
    rw [hmax]
    show ((nextFileLoop m reads c 100 0 0).attempts : Int) ≤ 100
    omega

/-- C6, at concrete inputs: three interrupted reads followed by `f.txt` give
HasEntry with `f.txt` after four reads, and reads that are always interrupted
give the normalized OS error after 100 reads. -/
theorem nextFile_bounded_retry_witness :
    ((nextFile sampleMapper interruptedThrice freshCursor).result = .hasEntry FILE "f.txt" ∧
      (nextFile sampleMapper interruptedThrice freshCursor).cursor.currentType = some FILE ∧
      (nextFile sampleMapper interruptedThrice freshCursor).cursor.currentName = some "f.txt" ∧
      (nextFile sampleMapper interruptedThrice freshCursor).attempts = 4) ∧
    (∃ e, alwaysInterrupted 99 = .transientFailure e ∧
      (nextFile sampleMapper alwaysInterrupted freshCursor).result =
        .error (sampleMapper.normalize e) ∧
      (nextFile sampleMapper alwaysInterrupted freshCursor).cursor.lastError =
        sampleMapper.normalize e ∧
      (nextFile sampleMapper alwaysInterrupted freshCursor).attempts = 100) :=
  ⟨(nextFile_bounded_retry sampleMapper interruptedThrice freshCursor).1 3 8 "f.txt"
      (by decide) (fun i hi => ⟨4, by simp [interruptedThrice, hi]⟩) (by decide),
    (nextFile_bounded_retry sampleMapper alwaysInterrupted freshCursor).2.1
      (fun _ _ => ⟨4, rfl⟩)⟩

/-- C7: `openDir` reports a failure as a value of the closed error set: a path
that does not exist gives NoSuchEntry (-1), a path that names a plain file
gives NotADirectory (-3), a directory that may not be read gives
PermissionDenied (-2), and the code `errno` reads on the handle is the code the
open reported. -/
theorem openDir_reports_closed_error_set (fs : String → PathStatus) (path : String) :
    ((fs path).pathExists = false →
      openResult fs path = .error ENOENT ∧ errno (openDir fs path) = ENOENT) ∧
    ((fs path).pathExists = true → (fs path).isDirectory = false →
      openResult fs path = .error ENOTDIR ∧ errno (openDir fs path) = ENOTDIR) ∧
    ((fs path).pathExists = true → (fs path).isDirectory = true → (fs path).readable = false →
      openResult fs path = .error EACCES ∧ errno (openDir fs path) = EACCES) ∧
    (∀ code, openResult fs path = .error code →
      code ∈ [ENOENT, EACCES, ENOTDIR] ∧ errno (openDir fs path) = code) ∧
    ENOENT = -1 ∧ ENOTDIR = -3 ∧ EACCES = -2 := by
  have hres : openCode (fs path) ≠ ESUCCESS →
      openResult fs path = .error (openCode (fs path)) := by
    intro hne
    simp [openResult, openDir, hne]
  have herr : errno (openDir fs path) = toJint (openCode (fs path)) := rfl
  have hcases : openCode (fs path) = ENOENT ∨ openCode (fs path) = ENOTDIR ∨
      openCode (fs path) = EACCES ∨ openCode (fs path) = ESUCCESS := by
    unfold openCode
    split_ifs <;> simp
  refine ⟨?_, ?_, ?_, ?_, rfl, rfl, rfl⟩
  · intro h1
    have hc : openCode (fs path) = ENOENT := by simp [openCode, h1]
    rw [herr, hres (by rw [hc]; decide), hc]
    exact ⟨rfl, rfl⟩
  · intro h1 h2
    have hc : openCode (fs path) = ENOTDIR := by simp [openCode, h1, h2]
    rw [herr, hres (by rw [hc]; decide), hc]
    exact ⟨rfl, rfl⟩
  · intro h1 h2 h3
    have hc : openCode (fs path) = EACCES := by simp [openCode, h1, h2, h3]
    rw [herr, hres (by rw [hc]; decide), hc]
    exact ⟨rfl, rfl⟩
  · intro code hcode
    rw [herr]
    rcases hcases with hc | hc | hc | hc
    · rw [hres (by rw [hc]; decide), hc] at hcode
      cases hcode
      rw [hc]
      exact ⟨by decide, rfl⟩
    · rw [hres (by rw [hc]; decide), hc] at hcode
      cases hcode
      rw [hc]
      exact ⟨by decide, rfl⟩
    · rw [hres (by rw [hc]; decide), hc] at hcode
      cases hcode
      rw [hc]
      exact ⟨by decide, rfl⟩
    · have hok : openResult fs path = .ok (openDir fs path) := by
        simp [openResult, openDir, hc]
      rw [hok] at hcode
      cases hcode

/-- C7, at concrete inputs: on the sample file system opening a path that does
not exist gives NoSuchEntry, opening the plain file gives NotADirectory and
opening the unreadable directory gives PermissionDenied, each readable through
`errno`. -/
theorem openDir_reports_closed_error_set_witness :
    (openResult sampleFs "/tmp/does-not-exist" = .error ENOENT ∧
      errno (openDir sampleFs "/tmp/does-not-exist") = ENOENT) ∧
    (openResult sampleFs "/tmp/d/f.txt" = .error ENOTDIR ∧
      errno (openDir sampleFs "/tmp/d/f.txt") = ENOTDIR) ∧
    (openResult sampleFs "/root" = .error EACCES ∧
      errno (openDir sampleFs "/root") = EACCES) ∧
    (EACCES ∈ [ENOENT, EACCES, ENOTDIR] ∧ errno (openDir sampleFs "/root") = EACCES) :=
  ⟨(openDir_reports_closed_error_set sampleFs "/tmp/does-not-exist").1 (by decide),
    (openDir_reports_closed_error_set sampleFs "/tmp/d/f.txt").2.1 (by decide) (by decide),
    (openDir_reports_closed_error_set sampleFs "/root").2.2.1 (by decide) (by decide)
      (by decide),
    (openDir_reports_closed_error_set sampleFs "/root").2.2.2.1 EACCES rfl⟩

/-- C8: `strerror` is total on the integers: the descriptions of Success,
NoSuchEntry, PermissionDenied and NotADirectory are pairwise distinct and not
empty, and every integer outside that set gets the fallback description, which
is not empty. -/
theorem strerror_total_distinct :
    ([ESUCCESS, ENOENT, EACCES, ENOTDIR].map strerror).Pairwise (fun a b => a ≠ b) ∧
    (∀ code ∈ [ESUCCESS, ENOENT, EACCES, ENOTDIR], strerror code ≠ "") ∧
    (∀ code : Int, code ∉ [ESUCCESS, ENOENT, EACCES, ENOTDIR] →
      strerror code = "Unknown error") ∧
    (∀ code : Int, strerror code ≠ "" ∧ 0 < (strerror code).length) := by
  have hall : ∀ code : Int, strerror code ≠ "" ∧ 0 < (strerror code).length := by
    intro code
    unfold strerror
    split_ifs <;> exact ⟨by decide, by decide⟩
  refine ⟨by decide, by decide, ?_, hall⟩
  intro code hcode
  simp only [List.mem_cons, List.mem_singleton, List.not_mem_nil, or_false, not_or] at hcode
  obtain ⟨h1, h2, h3, h4⟩ := hcode
  simp [strerror, h1, h2, h3, h4]
